import Mathlib

/-!
A verification development for the interview-manager client.

The embedding models the client-side logic of the booking calendar
(`src/pages/InterviewBooking.tsx`), the candidate directory
(`src/pages/CandidateSelection.tsx`), the dashboard aggregation
(`src/pages/Dashboard.tsx`) and the appointment form
(`src/components/AppointmentForm.tsx`).

Modelling conventions:
* A calendar day is its whole-day index: day 0 is 1970-01-01 (the
  JavaScript epoch day).  All `Date` values handled by the week grid sit
  at midnight of a calendar day, so they are represented by their day
  index; the timezone offset is taken to be zero, making local and UTC
  calendar dates coincide.
* An instant (e.g. a `created_at` timestamp) is its count of milliseconds
  since the epoch, an integer.
* A parsed local date-time (the result of `parseISO` on an
  `appointment_time` string) is a record of its calendar day, hour and
  minute; an unparseable or empty `appointment_time` is `none`.
* Nullable columns are `Option` values; `new Date(null)` evaluates to the
  epoch instant (ECMA-262: the `Date` constructor coerces `null` to the
  time value `0`), which at day granularity is day 0.
* Numbers that hold evaluation scores are rationals (the JavaScript
  numbers used by the app are small decimals, which ℚ represents
  exactly).
-/

namespace InterviewMgr

/-- JavaScript `Date.prototype.getDay` for a date at midnight of day `d`:
0 = Sunday … 6 = Saturday.  Day 0 (1970-01-01) was a Thursday, hence the
offset 4.  `%` on `Int` is Euclidean mod, so the result is in `[0, 7)`. -/
def jsGetDay (d : Int) : Int := (d + 4) % 7

/-- date-fns `startOfWeek(date, \x7b weekStartsOn: 1 \x7d)`: move back to the
most recent Monday (`InterviewBooking.tsx` lines 103 and 214). -/
def startOfWeek (d : Int) : Int := d - ((jsGetDay d - 1 + 7) % 7)

/-- date-fns `addDays`. -/
def addDays (d : Int) (n : Int) : Int := d + n

/-- The 7-day grid of `getWeekDays` (`InterviewBooking.tsx` lines 213-216):
`Array.from(\x7b length: 7 \x7d, (_, i) => addDays(start, i))` with
`start = startOfWeek(date, \x7b weekStartsOn: 1 \x7d)`. -/
def getWeekDays (date : Int) : List Int :=
  (List.range 7).map (fun i => addDays (startOfWeek date) (i : Int))

/-- The previous-week button: `setCurrentWeek(addDays(currentWeek, -7))`
(`InterviewBooking.tsx` line 376). -/
def goPreviousWeek (currentWeek : Int) : Int := addDays currentWeek (-7)

/-- The next-week button: `setCurrentWeek(addDays(currentWeek, 7))`
(`InterviewBooking.tsx` line 385). -/
def goNextWeek (currentWeek : Int) : Int := addDays currentWeek 7

/-- The fixed hourly slot list of the booking page
(`InterviewBooking.tsx` lines 74-78). -/
def timeSlots : List String :=
  ["08:00", "09:00", "10:00", "11:00", "12:00",
   "13:00", "14:00", "15:00", "16:00", "17:00",
   "18:00", "19:00", "20:00", "21:00", "22:00"]

/-- A parsed `appointment_time` instant, by local calendar day, hour of day
and minute (seconds play no role in any of the modelled code paths). -/
structure LocalDT where
  day : Int
  hour : Nat
  minute : Nat
deriving DecidableEq

/-- An appointment row (`hrta_cd00-03_appointment_info`).
`appointment_time` is the parse of the stored string: `none` stands for an
empty or unparseable string (the source's falsy check plus the
`try/catch` around `parseISO`). -/
structure Appointment where
  id : Int
  candidate_id : String
  appointment_time : Option LocalDT
deriving DecidableEq

/-- Two-digit zero padding, as date-fns `format` produces for `HH` and
`mm` tokens. -/
def pad2 (n : Nat) : String := if n < 10 then "0" ++ toString n else toString n

/-- date-fns `format(d, 'HH:mm')`. -/
def fmtHHMM (t : LocalDT) : String := pad2 t.hour ++ ":" ++ pad2 t.minute

/-- JavaScript `substring(0, 2)`. -/
def take2 (s : String) : String := ⟨s.data.take 2⟩

/-- The hour bucket computed in `getAppointmentsForTimeSlot`:
`format(appointmentDate, 'HH:mm').substring(0, 2) + ':00'`
(`InterviewBooking.tsx` lines 203-204). -/
def hourBucket (t : LocalDT) : String := take2 (fmtHHMM t) ++ ":00"

/-- `getAppointmentsForTimeSlot(date, time)` (`InterviewBooking.tsx` lines
197-211): keep the appointments whose parsed time is on the same calendar
day as `date` and whose hour bucket equals the slot label `time`. -/
def getAppointmentsForTimeSlot (appointments : List Appointment)
    (date : Int) (time : String) : List Appointment :=
  appointments.filter fun appointment =>
    match appointment.appointment_time with
    | none => false
    | some t => decide (t.day = date) && (hourBucket t == time)

/-- A row of `hrta_blocked_dates` (`InterviewBooking.tsx` lines 54-56):
`start_date` is a date string, `end_date` is a nullable date string; both
are modelled by the day index their parse denotes. -/
structure BlockedRange where
  id : Int
  start_date : Int
  end_date : Option Int
deriving DecidableEq

/-- JavaScript `new Date(x)` for `x` a date string or `null`: a parseable
date string gives that day, and `null` is coerced to the time value 0,
i.e. the epoch day 0 (ECMA-262) — not an invalid date. -/
def jsDateOfNullable : Option Int → Int
  | some d => d
  | none => 0

/-- `isDateBlocked(date)` (`InterviewBooking.tsx` lines 232-238):
`blockedDates.some(b => date >= new Date(b.start_date) && date <= new
Date(b.end_date))`. -/
def isDateBlocked (blockedDates : List BlockedRange) (date : Int) : Bool :=
  blockedDates.any fun b =>
    decide (b.start_date ≤ date) && decide (date ≤ jsDateOfNullable b.end_date)

/-- Civil date (year, month 1-12, day-of-month 1-31) of a day index; the
standard era-based conversion.  All divisions have non-negative operands
after the era split, where `Int` division (Euclidean) agrees with
floor division. -/
def civilFromDays (z0 : Int) : Int × Int × Int :=
  let z := z0 + 719468
  let era := if 0 ≤ z then z / 146097 else (z - 146096) / 146097
  let doe := z - era * 146097
  let yoe := (doe - doe / 1460 + doe / 36524 - doe / 146096) / 365
  let y := yoe + era * 400
  let doy := doe - (365 * yoe + yoe / 4 - yoe / 100)
  let mp := (5 * doy + 2) / 153
  let d := doy - (153 * mp + 2) / 5 + 1
  let m := if mp < 10 then mp + 3 else mp - 9
  (if m ≤ 2 then y + 1 else y, m, d)

/-- Day index of a civil date (year, month 1-12, day-of-month); inverse of
`civilFromDays`.  `d` may lie outside 1-31, shifting the result linearly,
which is how JavaScript's `Date` month/day overflow is reproduced. -/
def daysFromCivil (y0 m d : Int) : Int :=
  let y := if m ≤ 2 then y0 - 1 else y0
  let era := if 0 ≤ y then y / 400 else (y - 399) / 400
  let yoe := y - era * 400
  let mp := (m + 9) % 12
  let doy := (153 * mp + 2) / 5 + d - 1
  let doe := yoe * 365 + yoe / 4 - yoe / 100 + doy
  era * 146097 + doe - 719468

/-- JavaScript `new Date(year, monthIndex, day)` at midnight, as a day
index: the month index is 0-based and arbitrary (overflow rolls the
year), `day` may be 0 or negative (rolling into the previous month), and
a year in `[0, 99]` is interpreted as `1900 + year` (ECMA-262). -/
def jsDateYMD (year monthIndex day : Int) : Int :=
  let y := if 0 ≤ year ∧ year ≤ 99 then year + 1900 else year
  daysFromCivil (y + monthIndex / 12) (monthIndex % 12 + 1) day

/-- Four-digit zero padding for the `yyyy` format token (the app only ever
formats years of the current era). -/
def pad4 (n : Nat) : String :=
  if n < 10 then "000" ++ toString n
  else if n < 100 then "00" ++ toString n
  else if n < 1000 then "0" ++ toString n
  else toString n

/-- date-fns `format(day, "yyyy-MM-dd")` of the midnight date of `d`. -/
def formatYMD (d : Int) : String :=
  let c := civilFromDays d
  pad4 c.1.toNat ++ "-" ++ pad2 c.2.1.toNat ++ "-" ++ pad2 c.2.2.toNat

/-- The view state touched by clicking a day button in the week header:
the `selectedDate` state and the last route navigated to (`none` until a
navigation happens). -/
structure BookingPageState where
  selectedDate : Int
  route : Option String
deriving DecidableEq

/-- The day-button `onClick` (`InterviewBooking.tsx` lines 405-428):
`if (isDateBlocked(day)) return;` then `setSelectedDate(day)` and
`navigate(\x60/booking?date=$\x7bformat(day, "yyyy-MM-dd")\x7d\x60)`. -/
def clickWeekDay (blockedDates : List BlockedRange)
    (st : BookingPageState) (day : Int) : BookingPageState :=
  if isDateBlocked blockedDates day then st
  else { selectedDate := day, route := some ("/booking?date=" ++ formatYMD day) }

/-- A candidate row of `hrta_cd00-01_resume_extraction` as the directory
view consumes it.  Text columns are nullable; `vote` is a nullable
number; `created_at` is the parsed timestamp instant in milliseconds. -/
structure Candidate where
  candidate_id : String
  first_name : Option String
  last_name : Option String
  email : Option String
  mobile_num : Option String
  position_code : Option String
  status : Option String
  vote : Option ℚ
  availability : Option String
  asking_salary : Option String
  created_at : Int
deriving DecidableEq

/-- Does `l` start with `pat`?  (Character-list core of JavaScript
`String.prototype.startsWith`.) -/
def listStartsWith : List Char → List Char → Bool
  | _, [] => true
  | [], _ :: _ => false
  | a :: as, b :: bs => a == b && listStartsWith as bs

/-- Does `pat` occur contiguously in `l`?  (Character-list core of
JavaScript `String.prototype.includes`; an empty `pat` always occurs.) -/
def listHasSeg (l pat : List Char) : Bool :=
  match l with
  | [] => listStartsWith [] pat
  | c :: rest => listStartsWith (c :: rest) pat || listHasSeg rest pat

/-- JavaScript `s.includes(sub)`. -/
def strIncludes (s sub : String) : Bool := listHasSeg s.data sub.data

/-- The `matchesSearch` disjunction of `filteredCandidates`
(`CandidateSelection.tsx` lines 326-333).  Each disjunct uses optional
chaining, so a `null` field yields `undefined`, which is falsy: it
contributes `false` and evaluation moves to the next disjunct. -/
def matchesSearch (c : Candidate) (searchTerm : String) : Bool :=
  let searchLower := searchTerm.toLower
  (match c.first_name with
   | some s => strIncludes s.toLower searchLower
   | none => false) ||
  (match c.last_name with
   | some s => strIncludes s.toLower searchLower
   | none => false) ||
  (match c.email with
   | some s => strIncludes s.toLower searchLower
   | none => false) ||
  (match c.position_code with
   | some s => strIncludes s.toLower searchLower
   | none => false)

/-- The `matchesStatus` conjunct (`CandidateSelection.tsx` lines 336-337):
`statusFilter === 'all' || candidate.status === statusFilter`.  A `null`
status is strictly unequal to any filter string. -/
def matchesStatus (c : Candidate) (statusFilter : String) : Bool :=
  statusFilter == "all" || c.status == some statusFilter

/-- The `matchesPosition` conjunct (`CandidateSelection.tsx` lines
340-341). -/
def matchesPosition (c : Candidate) (positionFilter : String) : Bool :=
  positionFilter == "all" || c.position_code == some positionFilter

/-- Milliseconds per day. -/
def msPerDay : Int := 86400000

/-- JavaScript `d.setHours(0, 0, 0, 0)` on an instant: truncate to
midnight of its calendar day (timezone offset zero). -/
def startOfDayMs (t : Int) : Int := (t / msPerDay) * msPerDay

/-- The instant of `new Date(now.getFullYear(), now.getMonth(), 1)`:
midnight on the first day of the month containing `now`. -/
def monthStartMs (now : Int) : Int :=
  let c := civilFromDays (now / msPerDay)
  msPerDay * jsDateYMD c.1 (c.2.1 - 1) 1

/-- The instant of `new Date(now.getFullYear(), now.getMonth() - 1, 1)`:
midnight on the first day of the previous month. -/
def prevMonthStartMs (now : Int) : Int :=
  let c := civilFromDays (now / msPerDay)
  msPerDay * jsDateYMD c.1 (c.2.1 - 2) 1

/-- The instant of `new Date(now.getFullYear(), now.getMonth(), 0)`:
midnight on the last day of the previous month. -/
def prevMonthEndMs (now : Int) : Int :=
  let c := civilFromDays (now / msPerDay)
  msPerDay * jsDateYMD c.1 (c.2.1 - 1) 0

/-- The `matchesCreated` conjunct (`CandidateSelection.tsx` lines
344-377).  The source initialises it to `true` and reassigns inside
separate `if` blocks keyed on the filter string, which match at most one
case each, so the chain below is equivalent; an unrecognised filter
string leaves `true`.  `setDate(getDate() - k)` normalises day-of-month
overflow, which is exactly a shift by `k` whole days. -/
def matchesCreated (created now : Int) (createdFilter : String) : Bool :=
  if createdFilter == "all" then true
  else if createdFilter == "today" then decide (startOfDayMs now ≤ created)
  else if createdFilter == "7days" then decide (now - 7 * msPerDay ≤ created)
  else if createdFilter == "30days" then decide (now - 30 * msPerDay ≤ created)
  else if createdFilter == "thismonth" then decide (monthStartMs now ≤ created)
  else if createdFilter == "lastmonth" then
    decide (prevMonthStartMs now ≤ created) && decide (created ≤ prevMonthEndMs now)
  else true

/-- `filteredCandidates` (`CandidateSelection.tsx` lines 322-381): the
conjunction of the search, status, position and creation-date filters
over the in-memory candidate list.  `now` is the evaluation instant. -/
def filteredCandidates (candidates : List Candidate) (searchTerm : String)
    (statusFilter positionFilter createdFilter : String) (now : Int) :
    List Candidate :=
  candidates.filter fun candidate =>
    matchesSearch candidate searchTerm &&
    matchesStatus candidate statusFilter &&
    matchesPosition candidate positionFilter &&
    matchesCreated candidate.created_at now createdFilter

/-- The inline-editable candidate fields of the directory view (the keys
`saveEdit` can receive). -/
inductive EditField
  | first_name | last_name | email | mobile_num | position_code | status
  | vote | availability | asking_salary
deriving DecidableEq

/-- The type of the edit-box content as `saveEdit` consumes it: for
`vote` the source applies `parseFloat` to the trimmed text (empty text
becoming `null`, modelled by `none`); every other field is handled as the
raw string. -/
def EditField.inputType : EditField → Type
  | .vote => Option ℚ
  | _ => String

/-- A JavaScript value as sent in an update payload and stored in local
state: a string, a number, or `null`. -/
inductive JsVal
  | jstr : String → JsVal
  | jnum : ℚ → JsVal
  | jnull
deriving DecidableEq

/-- The value-computation and client-side validation part of `saveEdit`
(`CandidateSelection.tsx` lines 416-433): `none` means a validation
failure (the early `return` after the alert), `some u` the value the
update request carries.  Text input is trimmed first; `vote` must be
`null` or within `[0, 10]`; a non-empty `email` must contain `'@'`; an
empty trimmed string becomes `null` for `mobile_num`, `availability` and
`asking_salary`. -/
def validatedUpdate : (f : EditField) → f.inputType → Option JsVal
  | .vote, q =>
      match q with
      | none => some .jnull
      | some x => if x < 0 || x > 10 then none else some (.jnum x)
  | .email, s =>
      let t := s.trim
      if !(t == "") && !(strIncludes t "@") then none else some (.jstr t)
  | .mobile_num, s =>
      let t := s.trim
      some (if t == "" then .jnull else .jstr t)
  | .availability, s =>
      let t := s.trim
      some (if t == "" then .jnull else .jstr t)
  | .asking_salary, s =>
      let t := s.trim
      some (if t == "" then .jnull else .jstr t)
  | .first_name, s => some (.jstr s.trim)
  | .last_name, s => some (.jstr s.trim)
  | .position_code, s => some (.jstr s.trim)
  | .status, s => some (.jstr s.trim)

/-- The spread `\x7b ...selectedCandidate, [editingField]: updateValue \x7d`
(`CandidateSelection.tsx` line 448): replace exactly the edited field.
Per `validatedUpdate`, the `vote` branch only ever receives a number or
`null`, and the string branches only a string or `null`. -/
def Candidate.setField (c : Candidate) : EditField → JsVal → Candidate
  | .first_name, v =>
      { c with first_name := match v with | .jstr s => some s | _ => none }
  | .last_name, v =>
      { c with last_name := match v with | .jstr s => some s | _ => none }
  | .email, v =>
      { c with email := match v with | .jstr s => some s | _ => none }
  | .mobile_num, v =>
      { c with mobile_num := match v with | .jstr s => some s | _ => none }
  | .position_code, v =>
      { c with position_code := match v with | .jstr s => some s | _ => none }
  | .status, v =>
      { c with status := match v with | .jstr s => some s | _ => none }
  | .vote, v =>
      { c with vote := match v with | .jnum x => some x | _ => none }
  | .availability, v =>
      { c with availability := match v with | .jstr s => some s | _ => none }
  | .asking_salary, v =>
      { c with asking_salary := match v with | .jstr s => some s | _ => none }

/-- Read one editable field of a candidate as a JavaScript value (for
stating which fields an edit leaves untouched). -/
def Candidate.getField (c : Candidate) : EditField → JsVal
  | .first_name => match c.first_name with | some s => .jstr s | none => .jnull
  | .last_name => match c.last_name with | some s => .jstr s | none => .jnull
  | .email => match c.email with | some s => .jstr s | none => .jnull
  | .mobile_num => match c.mobile_num with | some s => .jstr s | none => .jnull
  | .position_code => match c.position_code with | some s => .jstr s | none => .jnull
  | .status => match c.status with | some s => .jstr s | none => .jnull
  | .vote => match c.vote with | some x => .jnum x | none => .jnull
  | .availability => match c.availability with | some s => .jstr s | none => .jnull
  | .asking_salary => match c.asking_salary with | some s => .jstr s | none => .jnull

/-- The update request `saveEdit` issues:
`update(\x7b [editingField]: updateValue \x7d).eq('candidate_id', ...)`. -/
structure SentUpdate where
  eq_candidate_id : String
  field : EditField
  value : JsVal
deriving DecidableEq

/-- The outcome of a `saveEdit` run on the success path of the backend
call: the request issued (if any) and the resulting local state. -/
structure SaveEditResult where
  request : Option SentUpdate
  selected : Candidate
  candidates : List Candidate
deriving DecidableEq

/-- `saveEdit` (`CandidateSelection.tsx` lines 410-465), on the path where
the backend call succeeds.  A validation failure returns early: no
request, no state change.  Otherwise the update request is issued, the
selected-candidate reference is replaced by the spread copy, and the
candidate list maps the matching row (by `candidate_id`) to that same
copy. -/
def saveEdit (selectedCandidate : Candidate) (candidates : List Candidate)
    (f : EditField) (v : f.inputType) : SaveEditResult :=
  match validatedUpdate f v with
  | none =>
      { request := none, selected := selectedCandidate, candidates := candidates }
  | some u =>
      let updatedCandidate := selectedCandidate.setField f u
      { request := some
          { eq_candidate_id := selectedCandidate.candidate_id, field := f, value := u },
        selected := updatedCandidate,
        candidates := candidates.map fun candidate =>
          if candidate.candidate_id = selectedCandidate.candidate_id
          then updatedCandidate else candidate }

/-- A `candidate_id, status` row as the dashboard fetches it. -/
structure StatusRow where
  candidate_id : String
  status : Option String
deriving DecidableEq

/-- Completed interviews (`Dashboard.tsx` lines 49-50):
`candidates?.filter(c => c.status === "Interviewed").length`. -/
def completedInterviews (candidates : List StatusRow) : Nat :=
  (candidates.filter fun c => c.status == some "Interviewed").length

/-- Size of `new Set(evaluations?.map(e => e.candidate_id))`
(`Dashboard.tsx` line 86): the number of distinct evaluated candidate
ids. -/
def evaluatedSetSize (evaluationIds : List String) : Nat :=
  evaluationIds.dedup.length

/-- Pending evaluations (`Dashboard.tsx` line 87):
`Math.max(0, completedInterviews - evaluatedSet.size)`, computed over
JavaScript numbers, hence in `Int`. -/
def pendingEvaluations (candidates : List StatusRow)
    (evaluationIds : List String) : Int :=
  max 0 ((completedInterviews candidates : Int) - (evaluatedSetSize evaluationIds : Int))

/-- The appointment form's fields (`AppointmentForm.tsx` lines 17-23,
41-47); all held as strings, empty meaning unset. -/
structure AppointmentFormData where
  candidate_id : String
  appointment_time : String
  position_code : String
  q_revision : String
  notes : String
deriving DecidableEq

/-- `validateForm` (`AppointmentForm.tsx` lines 129-143): candidate,
time and position code are required. -/
def validateForm (f : AppointmentFormData) : Bool :=
  !(f.candidate_id == "") && !(f.appointment_time == "") && !(f.position_code == "")

/-- The appointment payload built in `handleSubmit`
(`AppointmentForm.tsx` lines 155-161); empty `q_revision`/`notes` become
`null`. -/
structure AppointmentData where
  candidate_id : String
  appointment_time : String
  position_code : String
  q_revision : Option String
  notes : Option String
deriving DecidableEq

/-- A backend request the form submission issues. -/
inductive BackendReq
  | insertAppointment : AppointmentData → BackendReq
  | updateAppointment : Int → AppointmentData → BackendReq
  | updateCandidateStatus : String → String → BackendReq
deriving DecidableEq

/-- `handleSubmit` (`AppointmentForm.tsx` lines 145-198) on the path where
the appointment save succeeds, as the sequence of backend requests it
issues: nothing when validation fails; otherwise the insert (new) or
update-by-id (edit) of the appointment row, followed unconditionally by
the status update to "For Interview" (lines 179-183). -/
def handleSubmit (form : AppointmentFormData) (existingId : Option Int) :
    List BackendReq :=
  if !validateForm form then []
  else
    let appointmentData : AppointmentData :=
      { candidate_id := form.candidate_id,
        appointment_time := form.appointment_time,
        position_code := form.position_code,
        q_revision := if form.q_revision == "" then none else some form.q_revision,
        notes := if form.notes == "" then none else some form.notes }
    (match existingId with
     | some i => [BackendReq.updateAppointment i appointmentData]
     | none => [BackendReq.insertAppointment appointmentData]) ++
    [BackendReq.updateCandidateStatus form.candidate_id "For Interview"]

/-- Effect of one backend request on the candidate table: the status
update rewrites the status of every row whose `candidate_id` matches;
appointment-table requests leave the candidate table untouched. -/
def applyReq (candidates : List Candidate) : BackendReq → List Candidate
  | .updateCandidateStatus cid st =>
      candidates.map fun c =>
        if c.candidate_id = cid then { c with status := some st } else c
  | .insertAppointment _ => candidates
  | .updateAppointment _ _ => candidates

/-- Effect of a request sequence on the candidate table. -/
def applyAll (candidates : List Candidate) (reqs : List BackendReq) :
    List Candidate :=
  reqs.foldl applyReq candidates

/-- Example appointment at 2025-01-06 10:00 (day index 20094). -/
def apptA : Appointment :=
  { id := 1, candidate_id := "A",
    appointment_time := some { day := 20094, hour := 10, minute := 0 } }

/-- Example appointment at 2025-01-06 10:29. -/
def apptB : Appointment :=
  { id := 2, candidate_id := "B",
    appointment_time := some { day := 20094, hour := 10, minute := 29 } }

/-- Example appointment at 2025-01-06 10:59. -/
def apptC : Appointment :=
  { id := 3, candidate_id := "C",
    appointment_time := some { day := 20094, hour := 10, minute := 59 } }

/-- Example appointment at 2025-01-06 11:00. -/
def apptD : Appointment :=
  { id := 4, candidate_id := "D",
    appointment_time := some { day := 20094, hour := 11, minute := 0 } }

/-- Example appointment data for concrete evaluation: four appointments
on 2025-01-06 (day index 20094) at 10:00, 10:29, 10:59 and 11:00. -/
def sampleWeekAppointments : List Appointment := [apptA, apptB, apptC, apptD]

/-- Example candidate row (id c1, status Hired). -/
def candW1 : Candidate :=
  { candidate_id := "c1", first_name := some "Alice", last_name := some "Smith",
    email := some "alice@example.com", mobile_num := none,
    position_code := some "ENG", status := some "Hired", vote := some 5,
    availability := none, asking_salary := none, created_at := 0 }

/-- Example candidate row (id c2, status Interviewed). -/
def candW2 : Candidate :=
  { candidate_id := "c2", first_name := some "Carol", last_name := some "Jones",
    email := some "carol@example.com", mobile_num := none,
    position_code := some "OPS", status := some "Interviewed", vote := none,
    availability := none, asking_salary := none, created_at := 0 }

/-- Example candidate row sharing id c1, status Interviewed. -/
def candW3 : Candidate :=
  { candidate_id := "c1", first_name := some "Alice", last_name := some "Smith",
    email := some "alice@example.com", mobile_num := none,
    position_code := some "ENG", status := some "Interviewed", vote := none,
    availability := none, asking_salary := none, created_at := 0 }

/-- Example candidate row with absent name, email and position fields. -/
def candW5 : Candidate :=
  { candidate_id := "c5", first_name := none, last_name := none,
    email := none, mobile_num := none, position_code := none,
    status := some "CV Processed", vote := none,
    availability := none, asking_salary := none, created_at := 0 }

/-- Example filled appointment form targeting candidate c1. -/
def formW : AppointmentFormData :=
  { candidate_id := "c1", appointment_time := "2025-01-06T10:00:00",
    position_code := "ENG", q_revision := "", notes := "" }

/-! Helper lemmas. -/

/-- Taking two characters from a string whose first block has exactly two
characters returns that block. -/
theorem take2_append (a b c : String) (h : a.data.length = 2) :
    take2 (a ++ b ++ c) = a := by
  unfold take2
  have hd : (a ++ b ++ c).data = a.data ++ (b.data ++ c.data) := by
    show (a.data ++ b.data) ++ c.data = _
    rw [List.append_assoc]
  rw [hd, List.take_append_of_le_length (by omega), List.take_of_length_le (by omega)]

/-- Two-digit padding of a number below 100 has exactly two characters. -/
theorem pad2_data_length (n : Nat) (h : n < 100) : (pad2 n).data.length = 2 := by
  interval_cases n <;> decide

/-- For an hour below 100 (hence for any real hour of day), the hour
bucket of `getAppointmentsForTimeSlot` is the slot label of the hour with
the minutes discarded. -/
theorem hourBucket_eq (t : LocalDT) (h : t.hour < 100) :
    hourBucket t = pad2 t.hour ++ ":00" := by
  unfold hourBucket fmtHHMM
  rw [take2_append _ _ _ (pad2_data_length t.hour h)]

/-- Membership in a `(day, slot)` cell, characterised by the parsed
appointment time. -/
theorem mem_getAppointmentsForTimeSlot
    (appts : List Appointment) (a : Appointment) (t : LocalDT)
    (ht : a.appointment_time = some t) (day : Int) (s : String) :
    a ∈ getAppointmentsForTimeSlot appts day s ↔
      a ∈ appts ∧ t.day = day ∧ hourBucket t = s := by
  unfold getAppointmentsForTimeSlot
  rw [List.mem_filter]
  simp [ht]

/-- The slot list contains each in-range hour bucket exactly once. -/
theorem countP_timeSlots_bucket (t : LocalDT) (h8 : 8 ≤ t.hour) (h22 : t.hour ≤ 22) :
    timeSlots.countP (fun s => hourBucket t = s) = 1 := by
  obtain ⟨td, th, tm⟩ := t
  change 8 ≤ th at h8
  change th ≤ 22 at h22
  rw [hourBucket_eq ⟨td, th, tm⟩ (by change th < 100; omega)]
  change timeSlots.countP (fun s => pad2 th ++ ":00" = s) = 1
  interval_cases th <;> decide

/-- The distance from a day to the start of its week lies in `[0, 7)`. -/
theorem startOfWeek_diff_bounds (d : Int) :
    0 ≤ d - startOfWeek d ∧ d - startOfWeek d < 7 := by
  unfold startOfWeek jsGetDay
  have h1 : 0 ≤ (d + 4) % 7 := Int.emod_nonneg _ (by norm_num)
  have h2 : (d + 4) % 7 < 7 := Int.emod_lt_of_pos _ (by norm_num)
  have h4 : 0 ≤ ((d + 4) % 7 - 1 + 7) % 7 := Int.emod_nonneg _ (by norm_num)
  have h5 : ((d + 4) % 7 - 1 + 7) % 7 < 7 := Int.emod_lt_of_pos _ (by norm_num)
  omega

/-- The week grid is the seven consecutive days from the week start. -/
theorem getWeekDays_eq (d : Int) :
    getWeekDays d =
      [startOfWeek d, startOfWeek d + 1, startOfWeek d + 2, startOfWeek d + 3,
       startOfWeek d + 4, startOfWeek d + 5, startOfWeek d + 6] := by
  simp [getWeekDays, addDays, List.range_succ]

/-- The week grid has no repeated day. -/
theorem getWeekDays_nodup (d : Int) : (getWeekDays d).Nodup := by
  rw [getWeekDays_eq]
  simp [List.nodup_cons, List.mem_cons]

/-- Summing a 0/1 indicator over a list counts the occurrences of the
distinguished element. -/
theorem sum_map_indicator (l : List Int) (x : Int) :
    (l.map fun d => if d = x then 1 else 0).sum = l.count x := by
  induction l with
  | nil => rfl
  | cons a as ih =>
      simp only [List.map_cons, List.sum_cons, List.count_cons, ih]
      by_cases hax : a = x
      · simp [hax]
        omega
      · simp [hax]

/-- The fields `saveEdit` never writes are preserved by `setField`. -/
theorem setField_candidate_id (c : Candidate) (f : EditField) (u : JsVal) :
    (c.setField f u).candidate_id = c.candidate_id := by
  cases f <;> rfl

/-- Field update leaves the creation timestamp alone. -/
theorem setField_created_at (c : Candidate) (f : EditField) (u : JsVal) :
    (c.setField f u).created_at = c.created_at := by
  cases f <;> rfl

/-- Field update leaves every other editable field alone. -/
theorem getField_setField_ne (c : Candidate) (f g : EditField) (u : JsVal)
    (h : g ≠ f) : (c.setField f u).getField g = c.getField g := by
  cases f <;> cases g <;> first | rfl | exact absurd rfl h

/-! Claim theorems. -/

/-- C1: for an appointment with a parseable time `t`, a cell `(day, s)`
of the grid contains it iff `t`'s calendar day equals `day` and the slot
label `s` equals `t`'s hour bucket; the bucket is the two-digit hour
followed by ":00", independent of the minutes; and over the 7-day week
grid and the fixed 08:00-22:00 slot list, the appointment is counted in
exactly one cell whenever its day lies in the grid and its hour lies in
the slot range. -/
theorem C1_slot_assignment (appts : List Appointment) (a : Appointment)
    (t : LocalDT) (ha : a ∈ appts) (ht : a.appointment_time = some t) :
    (∀ (day : Int) (s : String),
       a ∈ getAppointmentsForTimeSlot appts day s ↔ t.day = day ∧ hourBucket t = s)
    ∧ (t.hour < 24 → hourBucket t = pad2 t.hour ++ ":00")
    ∧ (∀ w : Int, t.day ∈ getWeekDays w → 8 ≤ t.hour → t.hour ≤ 22 →
       ((getWeekDays w).map fun day =>
           timeSlots.countP fun s =>
             decide (a ∈ getAppointmentsForTimeSlot appts day s)).sum = 1) := by
  have hmem : ∀ (day : Int) (s : String),
      a ∈ getAppointmentsForTimeSlot appts day s ↔ t.day = day ∧ hourBucket t = s := by
    intro day s
    rw [mem_getAppointmentsForTimeSlot appts a t ht day s]
    simp [ha]
  refine ⟨hmem, fun h => hourBucket_eq t (by omega), ?_⟩
  intro w hw h8 h22
  have hcell : ∀ day ∈ getWeekDays w,
      (timeSlots.countP fun s => decide (a ∈ getAppointmentsForTimeSlot appts day s))
        = if day = t.day then 1 else 0 := by
    intro day _
    by_cases hd : day = t.day
    · rw [if_pos hd]
      subst hd
      have hcongr :
          (timeSlots.countP fun s =>
            decide (a ∈ getAppointmentsForTimeSlot appts t.day s))
            = timeSlots.countP fun s => decide (hourBucket t = s) :=
        List.countP_congr (fun s _ => by simp [hmem])
      rw [hcongr, countP_timeSlots_bucket t h8 h22]
    · rw [if_neg hd]
      refine List.countP_eq_zero.mpr ?_
      intro s _
      simp only [decide_eq_true_eq, hmem, not_and]
      intro h1
      exact absurd h1.symm hd
  calc ((getWeekDays w).map fun day =>
          timeSlots.countP fun s =>
            decide (a ∈ getAppointmentsForTimeSlot appts day s)).sum
      = ((getWeekDays w).map fun day => if day = t.day then 1 else 0).sum := by
        rw [List.map_congr_left hcell]
    _ = (getWeekDays w).count t.day := sum_map_indicator _ _
    _ = 1 := List.count_eq_one_of_mem (getWeekDays_nodup w) hw

/-- Witness for C1 on the sample data: the 10:00, 10:29 and 10:59
appointments all sit in the 10:00 cell of 2025-01-06 and not in its
11:00 cell, the 11:00 appointment sits in the 11:00 cell, and the 10:29
appointment is counted exactly once over the whole week grid. -/
theorem C1_slot_assignment_witness :
    apptA ∈ getAppointmentsForTimeSlot sampleWeekAppointments 20094 "10:00"
    ∧ apptB ∈ getAppointmentsForTimeSlot sampleWeekAppointments 20094 "10:00"
    ∧ apptC ∈ getAppointmentsForTimeSlot sampleWeekAppointments 20094 "10:00"
    ∧ apptB ∉ getAppointmentsForTimeSlot sampleWeekAppointments 20094 "11:00"
    ∧ apptD ∈ getAppointmentsForTimeSlot sampleWeekAppointments 20094 "11:00"
    ∧ hourBucket { day := 20094, hour := 10, minute := 29 } = "10:00"
    ∧ ((getWeekDays 20094).map fun day =>
         timeSlots.countP fun s =>
           decide (apptB ∈ getAppointmentsForTimeSlot sampleWeekAppointments day s)).sum
        = 1 := by
  have h1 := C1_slot_assignment sampleWeekAppointments apptA
    { day := 20094, hour := 10, minute := 0 } (by decide) rfl
  have h2 := C1_slot_assignment sampleWeekAppointments apptB
    { day := 20094, hour := 10, minute := 29 } (by decide) rfl
  have h3 := C1_slot_assignment sampleWeekAppointments apptC
    { day := 20094, hour := 10, minute := 59 } (by decide) rfl
  have h4 := C1_slot_assignment sampleWeekAppointments apptD
    { day := 20094, hour := 11, minute := 0 } (by decide) rfl
  refine ⟨(h1.1 20094 "10:00").mpr ⟨rfl, by decide⟩,
    (h2.1 20094 "10:00").mpr ⟨rfl, by decide⟩,
    (h3.1 20094 "10:00").mpr ⟨rfl, by decide⟩,
    fun hmem => absurd ((h2.1 20094 "11:00").mp hmem).2 (by decide),
    (h4.1 20094 "11:00").mpr ⟨rfl, by decide⟩,
    by rw [h2.2.1 (by norm_num)]; decide,
    h2.2.2 20094 (by decide) (by norm_num) (by norm_num)⟩

/-- C5: for any reference date, the computed week start falls on the
configured first day of the week (Monday, `getDay = 1`), the grid is
exactly the 7 consecutive days from the week start and always contains
the reference date, and the next/previous-week buttons shift the
reference date by exactly +7 / -7 days before the grid is recomputed. -/
theorem C5_week_start_grid_navigation (d w : Int) :
    jsGetDay (startOfWeek d) = 1
    ∧ getWeekDays d =
        [startOfWeek d, startOfWeek d + 1, startOfWeek d + 2, startOfWeek d + 3,
         startOfWeek d + 4, startOfWeek d + 5, startOfWeek d + 6]
    ∧ d ∈ getWeekDays d
    ∧ goNextWeek w = w + 7
    ∧ goPreviousWeek w = w - 7 := by
  refine ⟨?_, getWeekDays_eq d, ?_, rfl, rfl⟩
  · simp only [jsGetDay, startOfWeek]
    have e1 : (d + 4) % 7 - 1 + 7 = (d + 4) % 7 + 6 := by ring
    have key : ((d + 4) % 7 + 6) % 7 = (d + 10) % 7 := by
      conv_rhs => rw [show d + 10 = (d + 4) + 6 by ring, Int.add_emod]
      norm_num
    rw [e1, key]
    omega
  · obtain ⟨h1, h2⟩ := startOfWeek_diff_bounds d
    rw [getWeekDays_eq]
    simp only [List.mem_cons, List.not_mem_nil, or_false]
    omega

/-- C2: with every blocked range carrying a present end date, a day is
blocked iff it lies within `[start_date, end_date]` of some range,
inclusive on both ends and decided at calendar-day granularity; for a
single range, both endpoints are blocked while the day before the start
and the day after the end are not. -/
theorem C2_isDateBlocked_inclusive :
    (∀ (blockedDates : List BlockedRange) (d : Int),
       (∀ b ∈ blockedDates, b.end_date.isSome) →
       (isDateBlocked blockedDates d = true ↔
         ∃ b ∈ blockedDates, ∃ e : Int,
           b.end_date = some e ∧ b.start_date ≤ d ∧ d ≤ e))
    ∧ (∀ (b : BlockedRange) (e : Int), b.end_date = some e → b.start_date ≤ e →
        isDateBlocked [b] b.start_date = true
        ∧ isDateBlocked [b] e = true
        ∧ isDateBlocked [b] (b.start_date - 1) = false
        ∧ isDateBlocked [b] (e + 1) = false) := by
  constructor
  · intro bs d hend
    unfold isDateBlocked
    rw [List.any_eq_true]
    constructor
    · rintro ⟨b, hb, hpred⟩
      simp only [Bool.and_eq_true, decide_eq_true_eq] at hpred
      rcases Option.isSome_iff_exists.mp (hend b hb) with ⟨e, he⟩
      refine ⟨b, hb, e, he, hpred.1, ?_⟩
      have := hpred.2
      rw [he] at this
      simpa [jsDateOfNullable] using this
    · rintro ⟨b, hb, e, he, h1, h2⟩
      exact ⟨b, hb, by simp [he, jsDateOfNullable, h1, h2]⟩
  · intro b e he hse
    refine ⟨?_, ?_, ?_, ?_⟩ <;> simp [isDateBlocked, he, jsDateOfNullable] <;> omega

/-- Witness for C2 at the concrete range `[5, 8]`: both endpoints
blocked, day 4 and day 9 not blocked, interior day 6 blocked. -/
theorem C2_isDateBlocked_inclusive_witness :
    isDateBlocked [{ id := 1, start_date := 5, end_date := some 8 }] 5 = true
    ∧ isDateBlocked [{ id := 1, start_date := 5, end_date := some 8 }] 8 = true
    ∧ isDateBlocked [{ id := 1, start_date := 5, end_date := some 8 }] 4 = false
    ∧ isDateBlocked [{ id := 1, start_date := 5, end_date := some 8 }] 9 = false
    ∧ isDateBlocked [{ id := 1, start_date := 5, end_date := some 8 }] 6 = true := by
  have h2 := C2_isDateBlocked_inclusive.2
    { id := 1, start_date := 5, end_date := some 8 } 8 rfl (by norm_num)
  have h6 := (C2_isDateBlocked_inclusive.1
    [{ id := 1, start_date := 5, end_date := some 8 }] 6 (by simp)).mpr
    ⟨{ id := 1, start_date := 5, end_date := some 8 }, by simp, 8, rfl,
      by norm_num, by norm_num⟩
  refine ⟨h2.1, h2.2.1, ?_, h2.2.2.2, h6⟩
  have := h2.2.2.1
  norm_num at this
  exact this

/-- C3 counterexample: an open-ended range starting at the epoch day does
block the epoch day itself (the `null` end date parses to the epoch, not
to an invalid date), so the membership test of an open-ended range is not
always false. -/
theorem C3_counterexample :
    isDateBlocked [{ id := 1, start_date := 0, end_date := none }] 0 = true := by
  decide

/-- C3 amended: for a blocked range with an absent (`null`) end date, the
end parses to the epoch (day 0 = 1970-01-01), so the range blocks exactly
the days `d` with `start_date ≤ d ≤ 0`; every day after 1970-01-01 — in
particular every day the application realistically displays — is not
blocked by such a range. -/
theorem C3_open_range_blocks_only_up_to_epoch (i s d : Int) :
    (isDateBlocked [{ id := i, start_date := s, end_date := none }] d = true
       ↔ s ≤ d ∧ d ≤ 0)
    ∧ (0 < d →
       isDateBlocked [{ id := i, start_date := s, end_date := none }] d = false) := by
  constructor
  · simp [isDateBlocked, jsDateOfNullable]
  · intro hd
    simp only [isDateBlocked, jsDateOfNullable, List.any_cons, List.any_nil,
      Bool.or_false, Bool.and_eq_false_iff, decide_eq_false_iff_not]
    right
    omega

/-- Witness for C3 amended at the open range starting day -3: day -1 is
blocked, day 1 is not. -/
theorem C3_open_range_witness :
    isDateBlocked [{ id := 7, start_date := -3, end_date := none }] (-1) = true
    ∧ isDateBlocked [{ id := 7, start_date := -3, end_date := none }] 1 = false := by
  refine ⟨?_, ?_⟩
  · exact (C3_open_range_blocks_only_up_to_epoch 7 (-3) (-1)).1.mpr (by norm_num)
  · exact (C3_open_range_blocks_only_up_to_epoch 7 (-3) 1).2 (by norm_num)

/-- C4: clicking a blocked day in the week header changes neither the
selected date nor the route; clicking an unblocked day sets the selected
date to that day and navigates to the booking route carrying that day as
a `yyyy-MM-dd` date parameter. -/
theorem C4_day_click (blockedDates : List BlockedRange)
    (st : BookingPageState) (day : Int) :
    (isDateBlocked blockedDates day = true →
       clickWeekDay blockedDates st day = st)
    ∧ (isDateBlocked blockedDates day = false →
       (clickWeekDay blockedDates st day).selectedDate = day
       ∧ (clickWeekDay blockedDates st day).route
           = some ("/booking?date=" ++ formatYMD day)) := by
  constructor <;> intro h <;> simp [clickWeekDay, h]

/-- Witness for C4: with the range `[10, 12]` blocked, clicking day 11
leaves the state untouched, while clicking day 20 selects it and
navigates to `/booking?date=1970-01-21`. -/
theorem C4_day_click_witness :
    clickWeekDay [{ id := 1, start_date := 10, end_date := some 12 }]
      { selectedDate := 0, route := none } 11
      = { selectedDate := 0, route := none }
    ∧ (clickWeekDay [{ id := 1, start_date := 10, end_date := some 12 }]
        { selectedDate := 0, route := none } 20).selectedDate = 20
    ∧ (clickWeekDay [{ id := 1, start_date := 10, end_date := some 12 }]
        { selectedDate := 0, route := none } 20).route
        = some "/booking?date=1970-01-21" := by
  have hb := (C4_day_click [{ id := 1, start_date := 10, end_date := some 12 }]
    { selectedDate := 0, route := none } 11).1 (by decide)
  have hu := (C4_day_click [{ id := 1, start_date := 10, end_date := some 12 }]
    { selectedDate := 0, route := none } 20).2 (by decide)
  refine ⟨hb, hu.1, ?_⟩
  rw [hu.2]
  decide

/-- C6: a successful inline edit of one candidate field changes only that
field: the identifier, the creation timestamp and every other editable
field keep their values; the candidate list maps the matching row (by
id) to the updated copy and keeps every other row; and afterwards the
selected-candidate reference and every matching row of the list agree on
the same updated copy. -/
theorem C6_edit_frame (sel : Candidate) (cands : List Candidate)
    (f : EditField) (v : f.inputType)
    (hsucc : (saveEdit sel cands f v).request.isSome = true) :
    (∀ g : EditField, g ≠ f →
       (saveEdit sel cands f v).selected.getField g = sel.getField g)
    ∧ (saveEdit sel cands f v).selected.candidate_id = sel.candidate_id
    ∧ (saveEdit sel cands f v).selected.created_at = sel.created_at
    ∧ (saveEdit sel cands f v).candidates
        = cands.map (fun c =>
            if c.candidate_id = sel.candidate_id
            then (saveEdit sel cands f v).selected else c)
    ∧ (∀ c ∈ (saveEdit sel cands f v).candidates,
        c.candidate_id = sel.candidate_id → c = (saveEdit sel cands f v).selected)
    ∧ (∀ c ∈ cands, c.candidate_id ≠ sel.candidate_id →
        c ∈ (saveEdit sel cands f v).candidates) := by
  rcases hu : validatedUpdate f v with _ | u
  · simp [saveEdit, hu] at hsucc
  · simp only [saveEdit, hu]
    refine ⟨fun g hg => getField_setField_ne sel f g u hg,
      setField_candidate_id sel f u, setField_created_at sel f u, trivial, ?_, ?_⟩
    · intro c hc hid
      rcases List.mem_map.mp hc with ⟨c0, hc0, hmap⟩
      by_cases h0 : c0.candidate_id = sel.candidate_id
      · rw [if_pos h0] at hmap
        exact hmap.symm
      · rw [if_neg h0] at hmap
        rw [← hmap] at hid
        exact absurd hid h0
    · intro c hc hne
      exact List.mem_map.mpr ⟨c, hc, by rw [if_neg hne]⟩

/-- Witness for C6: editing `first_name` of c1 to "Bob" leaves its email
untouched, keeps the id, makes the matching list row agree with the
selected copy, and keeps the other row c2 in the list. -/
theorem C6_edit_frame_witness :
    (saveEdit candW1 [candW1, candW2] .first_name "Bob").selected.getField .email
      = candW1.getField .email
    ∧ (saveEdit candW1 [candW1, candW2] .first_name "Bob").selected.candidate_id
        = "c1"
    ∧ (∀ c ∈ (saveEdit candW1 [candW1, candW2] .first_name "Bob").candidates,
        c.candidate_id = "c1" →
        c = (saveEdit candW1 [candW1, candW2] .first_name "Bob").selected)
    ∧ candW2 ∈ (saveEdit candW1 [candW1, candW2] .first_name "Bob").candidates := by
  have h := C6_edit_frame candW1 [candW1, candW2] .first_name "Bob" (by decide)
  exact ⟨h.1 .email (by decide), h.2.1, h.2.2.2.2.1,
    h.2.2.2.2.2 candW2 (by decide) (by decide)⟩

/-- C7: editing the vote to a number outside `[0, 10]` is rejected
client-side — no update request is issued and the local state is
unchanged — while an in-range number is sent in an update request and
echoed into both the selected-candidate reference and every matching row
of the candidate list. -/
theorem C7_vote_range (sel : Candidate) (cands : List Candidate) (x : ℚ) :
    ((x < 0 ∨ 10 < x) →
       saveEdit sel cands .vote (some x)
         = { request := none, selected := sel, candidates := cands })
    ∧ (0 ≤ x → x ≤ 10 →
       (saveEdit sel cands .vote (some x)).request
           = some { eq_candidate_id := sel.candidate_id, field := .vote,
                    value := .jnum x }
       ∧ (saveEdit sel cands .vote (some x)).selected.vote = some x
       ∧ ∀ c ∈ (saveEdit sel cands .vote (some x)).candidates,
           c.candidate_id = sel.candidate_id → c.vote = some x) := by
  constructor
  · intro hx
    have hval : validatedUpdate .vote (some x) = none := by
      rcases hx with h | h <;> simp [validatedUpdate, h]
    simp [saveEdit, hval]
  · intro h0 h10
    have c1 : ¬ x < 0 := not_lt.mpr h0
    have c2 : ¬ x > 10 := not_lt.mpr h10
    have hval : validatedUpdate .vote (some x) = some (.jnum x) := by
      simp [validatedUpdate, c1, c2]
    simp only [saveEdit, hval]
    refine ⟨trivial, rfl, ?_⟩
    intro c hc hid
    rcases List.mem_map.mp hc with ⟨c0, hc0, hmap⟩
    by_cases hcc : c0.candidate_id = sel.candidate_id
    · rw [← hmap]
      rw [if_pos hcc]
      rfl
    · rw [if_neg hcc] at hmap
      rw [← hmap] at hid
      exact absurd hid hcc

/-- Witness for C7: a vote of 11 is rejected with no request and no state
change; a vote of 7.5 is sent and echoed into the selected copy. -/
theorem C7_vote_range_witness :
    saveEdit candW1 [candW1, candW2] .vote (some 11)
      = { request := none, selected := candW1, candidates := [candW1, candW2] }
    ∧ (saveEdit candW1 [candW1, candW2] .vote (some (7.5 : ℚ))).request
        = some { eq_candidate_id := "c1", field := .vote, value := .jnum (7.5 : ℚ) }
    ∧ (saveEdit candW1 [candW1, candW2] .vote (some (7.5 : ℚ))).selected.vote
        = some (7.5 : ℚ) := by
  have ha := (C7_vote_range candW1 [candW1, candW2] 11).1 (by norm_num)
  have hb := (C7_vote_range candW1 [candW1, candW2] (7.5 : ℚ)).2
    (by norm_num) (by norm_num)
  exact ⟨ha, hb.1, hb.2.1⟩

/-- C8: the pending-evaluations statistic equals
`max(0, completedInterviews - distinctEvaluatedCount)`; it is never
negative, it is zero whenever the evaluated set outnumbers the completed
interviews, and otherwise it is exactly the difference. -/
theorem C8_pending_evaluations (cands : List StatusRow) (evals : List String) :
    pendingEvaluations cands evals
      = max 0 ((completedInterviews cands : Int) - (evaluatedSetSize evals : Int))
    ∧ 0 ≤ pendingEvaluations cands evals
    ∧ ((completedInterviews cands : Int) < (evaluatedSetSize evals : Int) →
        pendingEvaluations cands evals = 0)
    ∧ ((evaluatedSetSize evals : Int) ≤ (completedInterviews cands : Int) →
        pendingEvaluations cands evals
          = (completedInterviews cands : Int) - (evaluatedSetSize evals : Int)) := by
  unfold pendingEvaluations
  refine ⟨rfl, le_max_left _ _, ?_, ?_⟩
  · intro h
    rw [max_eq_left (by omega)]
  · intro h
    rw [max_eq_right (by omega)]

/-- Witness for C8: one completed interview against two distinct
evaluated candidates floors at zero; two completed against one evaluated
gives one. -/
theorem C8_pending_evaluations_witness :
    pendingEvaluations [{ candidate_id := "a", status := some "Interviewed" }]
      ["a", "b", "a"] = 0
    ∧ 0 ≤ pendingEvaluations
        [{ candidate_id := "a", status := some "Interviewed" }] ["a", "b", "a"]
    ∧ pendingEvaluations
        [{ candidate_id := "a", status := some "Interviewed" },
         { candidate_id := "b", status := some "Interviewed" }] ["a"] = 1 := by
  have h1 := C8_pending_evaluations
    [{ candidate_id := "a", status := some "Interviewed" }] ["a", "b", "a"]
  have h2 := C8_pending_evaluations
    [{ candidate_id := "a", status := some "Interviewed" },
     { candidate_id := "b", status := some "Interviewed" }] ["a"]
  refine ⟨h1.2.2.1 (by decide), h1.2.1, ?_⟩
  rw [h2.2.2.2 (by decide)]
  decide

/-- C9: a validated appointment-form submission, after the appointment row
save succeeds, always issues a status update to "For Interview" for the
chosen candidate; applied to the candidate table it overwrites the
status of every matching row, whatever status it held before, and leaves
all other rows unchanged. -/
theorem C9_submit_sets_for_interview (form : AppointmentFormData)
    (existingId : Option Int) (hv : validateForm form = true) :
    BackendReq.updateCandidateStatus form.candidate_id "For Interview"
      ∈ handleSubmit form existingId
    ∧ ∀ cands : List Candidate,
        applyAll cands (handleSubmit form existingId)
          = cands.map fun c =>
              if c.candidate_id = form.candidate_id
              then { c with status := some "For Interview" } else c := by
  constructor
  · cases existingId <;> simp [handleSubmit, hv]
  · intro cands
    cases existingId <;> simp [handleSubmit, hv, applyAll, applyReq]

/-- Witness for C9: submitting the form for c1 issues the status update
and rewrites both rows with id c1 — one previously "Hired", one
previously "Interviewed" — to "For Interview", leaving c2 alone. -/
theorem C9_submit_sets_for_interview_witness :
    BackendReq.updateCandidateStatus "c1" "For Interview" ∈ handleSubmit formW none
    ∧ applyAll [candW1, candW2, candW3] (handleSubmit formW none)
        = [{ candW1 with status := some "For Interview" }, candW2,
           { candW3 with status := some "For Interview" }] := by
  have h := C9_submit_sets_for_interview formW none (by decide)
  refine ⟨h.1, ?_⟩
  rw [h.2 [candW1, candW2, candW3]]
  decide

/-- C10: a candidate whose first name, last name, email and position code
are all absent never satisfies the search predicate, and is therefore
excluded from the filtered directory for every search term and every
combination of the remaining filters — including the empty search term
with all other filters set to "all". -/
theorem C10_absent_fields_never_match (c : Candidate)
    (h1 : c.first_name = none) (h2 : c.last_name = none)
    (h3 : c.email = none) (h4 : c.position_code = none) :
    (∀ searchTerm : String, matchesSearch c searchTerm = false)
    ∧ ∀ (cands : List Candidate) (searchTerm sf pf cf : String) (now : Int),
        c ∉ filteredCandidates cands searchTerm sf pf cf now := by
  have hms : ∀ searchTerm : String, matchesSearch c searchTerm = false := by
    intro searchTerm
    simp [matchesSearch, h1, h2, h3, h4]
  refine ⟨hms, ?_⟩
  intro cands searchTerm sf pf cf now hc
  unfold filteredCandidates at hc
  have hpred := (List.mem_filter.mp hc).2
  rw [hms searchTerm] at hpred
  simp at hpred

/-- Witness for C10: the all-absent candidate never matches the empty
search term and is excluded even from a list containing it, with every
other filter set to "all". -/
theorem C10_absent_fields_never_match_witness :
    matchesSearch candW5 "" = false
    ∧ candW5 ∉ filteredCandidates [candW5] "" "all" "all" "all" 0 := by
  have h := C10_absent_fields_never_match candW5 rfl rfl rfl rfl
  exact ⟨h.1 "", h.2 [candW5] "" "all" "all" "all" 0⟩

end InterviewMgr
